import Mathlib

set_option maxRecDepth 8000

/-! Verification of the portfolio photo-gallery server against its
specification.  The repository carries three Express variants of the same
API: a Supabase-backed one (namespace `SB`, first half of api/index.ts), a
filesystem one (namespace `FS`, the unnamed part_006 module), and a
filesystem preview variant (namespace `PV`, second half of api/index.ts,
whose auth middleware is disabled).  Each definition below is a direct
functional translation of one route handler or helper of those files. -/

/-- HTTP outcome of a route handler, identified by status code and error kind
as produced by the handlers (200 ok, 400 quota or bad request, 401, 404, 500). -/
inductive Resp where
  | ok
  | quotaExceeded
  | notFound
  | badRequest
  | unauthorized
  | serverError
  deriving DecidableEq

/-- Tenant record, the JSON object built by the create-client handlers:
`{ id, name, createdAt }`.  The timestamp is modelled as a natural number. -/
structure Tenant where
  id : String
  name : String
  createdAt : Nat
  deriving DecidableEq

/-- Models the JavaScript expression `process.env.ADMIN_PASSWORD || "admin123"`:
an unset variable (`none`) and the empty string are both falsy, so both fall
back to the literal default. -/
def envOr (e : Option String) : String :=
  match e with
  | none => "admin123"
  | some s => if s = "" then "admin123" else s

/-- Models `String.prototype.trim()`: drop whitespace from both ends. -/
def jsTrim (s : String) : String :=
  String.mk (((s.data.dropWhile Char.isWhitespace).reverse.dropWhile Char.isWhitespace).reverse)

/-- True on a double quote (code 34) or single quote (code 39) character. -/
def isQuoteChar (c : Char) : Bool :=
  c == Char.ofNat 34 || c == Char.ofNat 39

/-- Drop one leading quote character, if present. -/
def dropLeadQuote (l : List Char) : List Char :=
  match l with
  | [] => []
  | c :: cs => if isQuoteChar c then cs else c :: cs

/-- Models `s.replace(/^["<apos>]|["<apos>]$/g, "")` from the Supabase variant
of getAdminPassword: remove at most one leading and then at most one trailing
quote character. -/
def stripQuotes (s : String) : String :=
  String.mk ((dropLeadQuote ((dropLeadQuote s.data).reverse)).reverse)

namespace SB

/-- Supabase variant getAdminPassword (api/index.ts lines 120-127):
`(process.env.ADMIN_PASSWORD || "admin123").trim()` followed by stripping one
layer of surrounding quotes.  The catch branch, taken when reading the
environment throws, also returns "admin123" and is subsumed by `none`. -/
def getAdminPassword (e : Option String) : String :=
  stripQuotes (jsTrim (envOr e))

/-- Supabase variant authMiddleware (api/index.ts lines 152-159): the request
proceeds exactly when the Authorization header strictly equals
`Bearer <password>`. -/
def authMiddlewarePasses (e : Option String) (authHeader : Option String) : Bool :=
  authHeader == some ("Bearer " ++ getAdminPassword e)

/-- Supabase variant POST /api/admin/verify (api/index.ts lines 129-150):
missing or empty password is falsy and yields 400; otherwise strict string
comparison against the configured password. -/
def verifyEndpoint (e : Option String) (password : Option String) : Resp :=
  match password with
  | none => Resp.badRequest
  | some p =>
      if p = "" then Resp.badRequest
      else if p = getAdminPassword e then Resp.ok
      else Resp.unauthorized

end SB

namespace FS

/-- Filesystem variant getAdminPassword (part_006 line 38):
`(process.env.ADMIN_PASSWORD || "admin123").trim()` with no quote stripping. -/
def getAdminPassword (e : Option String) : String :=
  jsTrim (envOr e)

/-- Filesystem variant authMiddleware (part_006 lines 62-71): the request
proceeds exactly when the Authorization header strictly equals
`Bearer <password>`. -/
def authMiddlewarePasses (e : Option String) (authHeader : Option String) : Bool :=
  authHeader == some ("Bearer " ++ getAdminPassword e)

end FS

namespace PV

/-- Preview variant configured password (api/index.ts line 470):
`process.env.ADMIN_PASSWORD || "admin123"`, not even trimmed. -/
def ADMIN_PASSWORD (e : Option String) : String :=
  envOr e

/-- Preview variant authMiddleware (api/index.ts lines 471-474): the source
comment reads "Password check disabled for preview" and the middleware calls
next() unconditionally, so every request passes whatever the header. -/
def authMiddlewarePasses (_authHeader : Option String) : Bool :=
  true

end PV

/-- C7 counterexample: the preview variant of the auth middleware admits a
request whose credential differs from the configured operator secret, so not
every mutating operation is gated as the claim states. -/
theorem authGate_preview_disabled_cx :
    PV.authMiddlewarePasses (some "Bearer nope") = true ∧
    PV.ADMIN_PASSWORD none = "admin123" ∧
    ("Bearer nope" : String) ≠ "Bearer " ++ PV.ADMIN_PASSWORD none := by
  refine ⟨rfl, rfl, ?_⟩
  decide

/-- C7 amended: in the Supabase and part_006 filesystem variants the auth
middleware admits a request exactly when its Authorization header equals
`Bearer <configured secret>`, and verify succeeds exactly on a nonempty
candidate equal to the configured secret; the preview variant in the second
half of api/index.ts has the check disabled and admits every request. -/
theorem authGate_amended : ∀ (e : Option String) (h : Option String) (p : String),
    (SB.authMiddlewarePasses e h = true ↔ h = some ("Bearer " ++ SB.getAdminPassword e)) ∧
    (FS.authMiddlewarePasses e h = true ↔ h = some ("Bearer " ++ FS.getAdminPassword e)) ∧
    (SB.verifyEndpoint e (some p) = Resp.ok ↔ (p ≠ "" ∧ p = SB.getAdminPassword e)) ∧
    PV.authMiddlewarePasses h = true := by
  intro e h p
  refine ⟨?_, ?_, ?_, rfl⟩
  · simp [SB.authMiddlewarePasses]
  · simp [FS.authMiddlewarePasses]
  · unfold SB.verifyEndpoint
    by_cases hp : p = ""
    · simp [hp]
    · by_cases hq : p = SB.getAdminPassword e <;> simp [hp, hq]

/-- C10 counterexample: the part_006 filesystem variant compares the
configured value after trimming only; with ADMIN_PASSWORD set to a quoted
string the quotes are kept, so the claim that the configured value is
compared only after trimming and stripping one layer of quotes fails there:
the header carrying the unquoted secret is rejected and the quoted one is
accepted. -/
theorem adminPassword_fs_keeps_quotes_cx :
    FS.getAdminPassword (some "\"x\"") = "\"x\"" ∧
    SB.getAdminPassword (some "\"x\"") = "x" ∧
    ("\"x\"" : String) ≠ "x" ∧
    FS.authMiddlewarePasses (some "\"x\"") (some "Bearer x") = false ∧
    FS.authMiddlewarePasses (some "\"x\"") (some "Bearer \"x\"") = true := by
  refine ⟨?_, ?_, ?_, ?_, ?_⟩ <;> decide

/-- C10 amended: both variants default the operator credential to "admin123"
when ADMIN_PASSWORD is unset or empty (the Supabase variant also on a read
exception), so verify("admin123") succeeds and the middleware accepts the
header `Bearer admin123`; both trim whitespace, but only the Supabase variant
additionally strips one leading and one trailing quote character, while the
filesystem variant compares the merely trimmed value. -/
theorem adminPassword_default_amended : ∀ s : String,
    SB.getAdminPassword none = "admin123" ∧
    FS.getAdminPassword none = "admin123" ∧
    SB.verifyEndpoint none (some "admin123") = Resp.ok ∧
    SB.authMiddlewarePasses none (some "Bearer admin123") = true ∧
    FS.authMiddlewarePasses none (some "Bearer admin123") = true ∧
    SB.getAdminPassword (some s) = stripQuotes (jsTrim (envOr (some s))) ∧
    FS.getAdminPassword (some s) = jsTrim (envOr (some s)) := by
  intro s
  exact ⟨rfl, rfl, by decide, by decide, by decide, rfl, rfl⟩

/-- Filesystem variant server state: the parsed clients.json array plus the
uploads directory tree, as pairs of directory name and contained file names. -/
structure FSState where
  clients : List Tenant
  dirs : List (String × List String)
  deriving DecidableEq

namespace FS

/-- Filesystem variant POST /api/admin/clients (part_006 lines 105-124):
reject with the quota error when 4 clients already exist, otherwise push the
new record onto clients.json and create the upload directory if absent. -/
def createClient (s : FSState) (clientId name : String) (now : Nat) : FSState × Resp :=
  if 4 ≤ s.clients.length then (s, Resp.quotaExceeded)
  else
    ({ clients := s.clients ++ [{ id := clientId, name := name, createdAt := now }],
       dirs := if s.dirs.any (fun d => d.1 == clientId) then s.dirs
               else s.dirs ++ [(clientId, [])] },
     Resp.ok)

/-- Filesystem variant getClients (part_006 lines 53-59): parse clients.json
and return the array as stored, in insertion order. -/
def getClients (s : FSState) : List Tenant :=
  s.clients

end FS

/-- Listing order requested by the Supabase variant: most recent first. -/
def RecentFirst (a b : Tenant) : Prop :=
  b.createdAt ≤ a.createdAt

instance : DecidableRel RecentFirst :=
  fun a b => inferInstanceAs (Decidable (b.createdAt ≤ a.createdAt))

/-- Insert a tenant into a list kept in descending createdAt order. -/
def insertDesc (t : Tenant) : List Tenant → List Tenant
  | [] => [t]
  | u :: us => if t.createdAt ≤ u.createdAt then u :: insertDesc t us else t :: u :: us

/-- Sort a tenant list by createdAt, most recent first. -/
def sortByCreatedAtDesc (l : List Tenant) : List Tenant :=
  l.foldr insertDesc []

theorem insertDesc_perm (t : Tenant) (l : List Tenant) :
    List.Perm (insertDesc t l) (t :: l) := by
  induction l with
  | nil => simp [insertDesc]
  | cons u us ih =>
      by_cases h : t.createdAt ≤ u.createdAt
      · simpa [insertDesc, h] using (ih.cons u).trans (List.Perm.swap t u us)
      · simp [insertDesc, h]

theorem pairwise_insertDesc (t : Tenant) {l : List Tenant}
    (hl : l.Pairwise RecentFirst) : (insertDesc t l).Pairwise RecentFirst := by
  induction l with
  | nil => simp [insertDesc, List.Pairwise]
  | cons u us ih =>
      rcases List.pairwise_cons.mp hl with ⟨hu, hus⟩
      by_cases h : t.createdAt ≤ u.createdAt
      · simp only [insertDesc, if_pos h]
        refine List.pairwise_cons.mpr ⟨?_, ih hus⟩
        intro v hv
        rcases List.mem_cons.mp ((insertDesc_perm t us).mem_iff.mp hv) with rfl | hv3
        · exact h
        · exact hu v hv3
      · simp only [insertDesc, if_neg h]
        refine List.pairwise_cons.mpr ⟨?_, hl⟩
        intro v hv
        have hut : RecentFirst t u := Nat.le_of_lt (Nat.lt_of_not_le h)
        rcases List.mem_cons.mp hv with rfl | hv3
        · exact hut
        · exact Nat.le_trans (hu v hv3) hut

theorem sortByCreatedAtDesc_perm (l : List Tenant) :
    List.Perm (sortByCreatedAtDesc l) l := by
  induction l with
  | nil => simp [sortByCreatedAtDesc]
  | cons u us ih =>
      simpa [sortByCreatedAtDesc] using (insertDesc_perm u (us.foldr insertDesc [])).trans (ih.cons u)

theorem sortByCreatedAtDesc_pairwise (l : List Tenant) :
    (sortByCreatedAtDesc l).Pairwise RecentFirst := by
  induction l with
  | nil => simp [sortByCreatedAtDesc, List.Pairwise]
  | cons u us ih => exact pairwise_insertDesc u ih

namespace SB

/-- Supabase variant POST /api/admin/clients (api/index.ts lines 271-290):
insert the new record into the clients table and return it.  The handler has
no tenant-count check; the backend is modelled as reachable and succeeding. -/
def createClient (db : List Tenant) (clientId name : String) (now : Nat) :
    List Tenant × Resp :=
  (db ++ [{ id := clientId, name := name, createdAt := now }], Resp.ok)

/-- Supabase variant getClients (api/index.ts lines 162-178): select all rows
of the clients table ordered by createdAt descending; the backing table is
modelled as returning the rows sorted as requested. -/
def getClients (db : List Tenant) : List Tenant :=
  sortByCreatedAtDesc db

end SB

/-- Table of four already-existing tenants. -/
def db4 : List Tenant :=
  [{ id := "a1", name := "A", createdAt := 1 }, { id := "b2", name := "B", createdAt := 2 },
   { id := "c3", name := "C", createdAt := 3 }, { id := "d4", name := "D", createdAt := 4 }]

/-- C1 counterexample: the Supabase create-client handler performs no
tenant-count check, so with 4 tenants already existing a further CreateTenant
call succeeds and a fifth record is created, contradicting the claim. -/
theorem createTenant_supabase_fifth_succeeds_cx :
    db4.length = 4 ∧
    (SB.createClient db4 "e5" "Eve" 5).2 = Resp.ok ∧
    ((SB.createClient db4 "e5" "Eve" 5).1).length = 5 := by
  decide

/-- C1 amended: the filesystem variant rejects with the quota error and leaves
the state unchanged whenever 4 tenants exist, so any sequence of its calls
keeps the count at most 4; the Supabase variant has no tenant-count check and
every CreateTenant call there succeeds and appends one record. -/
theorem createTenant_quota_amended :
    ∀ (s : FSState) (db : List Tenant) (i n : String) (now : Nat),
    (4 ≤ s.clients.length → FS.createClient s i n now = (s, Resp.quotaExceeded)) ∧
    (s.clients.length ≤ 4 → ((FS.createClient s i n now).1).clients.length ≤ 4) ∧
    (SB.createClient db i n now).2 = Resp.ok ∧
    ((SB.createClient db i n now).1).length = db.length + 1 := by
  intro s db i n now
  refine ⟨?_, ?_, rfl, by simp [SB.createClient]⟩
  · intro h
    simp [FS.createClient, h]
  · intro h
    by_cases h4 : 4 ≤ s.clients.length
    · simp [FS.createClient, h4]
      exact h
    · have h5 := Nat.lt_of_not_le h4
      simp [FS.createClient, h4]
      omega

/-- C1 amended witness at a state holding exactly 4 tenants. -/
theorem createTenant_quota_amended_w :
    FS.createClient ⟨db4, []⟩ "e5" "Eve" 5 = (⟨db4, []⟩, Resp.quotaExceeded) ∧
    ((FS.createClient ⟨db4, []⟩ "e5" "Eve" 5).1).clients.length ≤ 4 :=
  ⟨(createTenant_quota_amended ⟨db4, []⟩ db4 "e5" "Eve" 5).1 (by decide),
   (createTenant_quota_amended ⟨db4, []⟩ db4 "e5" "Eve" 5).2.1 (by decide)⟩

/-- Filesystem state reached by creating tenant a at time 1 then b at time 2. -/
def fs2 : FSState :=
  (FS.createClient (FS.createClient ⟨[], []⟩ "a" "Ana" 1).1 "b" "Bea" 2).1

/-- C9 counterexample: in the filesystem variant getClients returns the
clients.json array in insertion order; after creating tenant a at time 1 and
tenant b at time 2 the listing starts with the older record, so listTenants is
not ordered most recent first in every variant and state. -/
theorem listTenants_fs_not_desc_cx :
    FS.getClients fs2 = [{ id := "a", name := "Ana", createdAt := 1 },
                         { id := "b", name := "Bea", createdAt := 2 }] ∧
    ¬ (FS.getClients fs2).Pairwise RecentFirst := by
  decide

/-- C9 amended: the Supabase variant lists tenants ordered by creation time
most recent first (a permutation of the stored rows); the filesystem variant
returns the stored array unchanged, and its createClient appends at the end,
so that listing is oldest first. -/
theorem listTenants_order_amended :
    ∀ (db : List Tenant) (s : FSState) (i n : String) (now : Nat),
    (SB.getClients db).Pairwise RecentFirst ∧
    List.Perm (SB.getClients db) db ∧
    FS.getClients s = s.clients ∧
    FS.getClients ((FS.createClient s i n now).1) =
      (if 4 ≤ s.clients.length then s.clients
       else s.clients ++ [{ id := i, name := n, createdAt := now }]) := by
  intro db s i n now
  refine ⟨sortByCreatedAtDesc_pairwise db, sortByCreatedAtDesc_perm db, rfl, ?_⟩
  by_cases h4 : 4 ≤ s.clients.length <;> simp [FS.createClient, FS.getClients, h4]

/-- Supabase variant server state: the clients table plus the photos bucket,
whose objects are keyed by tenant id and file name. -/
structure SBState where
  db : List Tenant
  store : List (String × String)
  deriving DecidableEq

namespace SB

/-- Intermediate states of DELETE /api/admin/clients/:id (api/index.ts lines
299-319), in execution order: list the objects under the tenant prefix, remove
them when the listing is non-empty, then delete the clients table row.  The
trace records the state before the handler, after the storage removal, and
after the row deletion. -/
def deleteClientTrace (s : SBState) (id : String) : List SBState :=
  let files := s.store.filter (fun b => b.1 == id)
  let s1 := if 0 < files.length
            then { s with store := s.store.filter (fun b => !(b.1 == id)) }
            else s
  let s2 := { s1 with db := s1.db.filter (fun t => !(t.id == id)) }
  [s, s1, s2]

/-- Supabase variant DELETE /api/admin/clients/:id: final state and response,
with the backend modelled as reachable and succeeding. -/
def deleteClient (s : SBState) (id : String) : SBState × Resp :=
  ((deleteClientTrace s id).getLastD s, Resp.ok)

/-- Supabase variant DELETE /api/admin/photos/:client/:filename (api/index.ts
lines 351-364): remove the single object client/filename.  Supabase storage
removal of an absent key reports no error, so the handler answers ok either
way. -/
def deletePhoto (s : SBState) (c f : String) : SBState × Resp :=
  ({ s with store := s.store.filter (fun b => !(b.1 == c && b.2 == f)) }, Resp.ok)

/-- A state is orphan-free for a tenant id when the tenant row still exists or
no stored object lies under its prefix. -/
def safeFor (s : SBState) (id : String) : Prop :=
  (∃ u ∈ s.db, u.id = id) ∨ (∀ b ∈ s.store, b.1 ≠ id)

instance (s : SBState) (id : String) : Decidable (safeFor s id) :=
  inferInstanceAs (Decidable ((∃ u ∈ s.db, u.id = id) ∨ (∀ b ∈ s.store, b.1 ≠ id)))

end SB

namespace FS

/-- Intermediate states of DELETE /api/admin/clients/:id (part_006 lines
132-144), in execution order: filter the record out of clients.json and save
it, then remove the upload directory when it exists.  The metadata record is
removed first, the blobs second. -/
def deleteClientTrace (s : FSState) (id : String) : List FSState :=
  let s1 := { s with clients := s.clients.filter (fun c => !(c.id == id)) }
  let s2 := if s1.dirs.any (fun d => d.1 == id)
            then { s1 with dirs := s1.dirs.filter (fun d => !(d.1 == id)) }
            else s1
  [s, s1, s2]

/-- Filesystem variant DELETE /api/admin/clients/:id: final state and
response. -/
def deleteClient (s : FSState) (id : String) : FSState × Resp :=
  ((deleteClientTrace s id).getLastD s, Resp.ok)

/-- Models fs.existsSync applied to uploads/client/filename. -/
def fileExists (s : FSState) (c f : String) : Bool :=
  s.dirs.any (fun d => d.1 == c && d.2.contains f)

/-- Filesystem variant DELETE /api/admin/photos/:client/:filename (part_006
lines 161-171): unlink the file and answer ok when it exists, otherwise answer
404 File not found. -/
def deletePhoto (s : FSState) (c f : String) : FSState × Resp :=
  if fileExists s c f then
    ({ s with dirs := List.map (fun d => if d.1 == c then (d.1, List.filter (fun g => !(g == f)) d.2) else d) s.dirs }, Resp.ok)
  else (s, Resp.notFound)

/-- A state is orphan-free for a tenant id when the record still exists or the
upload directory for the id holds no files. -/
def safeFor (s : FSState) (id : String) : Prop :=
  (∃ u ∈ s.clients, u.id = id) ∨ (∀ d ∈ s.dirs, d.1 = id → d.2 = [])

instance (s : FSState) (id : String) : Decidable (safeFor s id) :=
  inferInstanceAs (Decidable ((∃ u ∈ s.clients, u.id = id) ∨ (∀ d ∈ s.dirs, d.1 = id → d.2 = [])))

end FS

/-- Filesystem state holding one tenant a with one stored photo. -/
def fsDel0 : FSState :=
  { clients := [{ id := "a", name := "Ana", createdAt := 1 }], dirs := [("a", ["f.jpg"])] }

/-- State after the filesystem delete-tenant handler has saved the filtered
clients.json but not yet removed the upload directory. -/
def fsDelMid : FSState :=
  { clients := [], dirs := [("a", ["f.jpg"])] }

/-- C3 counterexample: the filesystem variant removes the metadata record
first and the blobs second, so the intermediate state of its delete-tenant
trace has the record of tenant a absent while its blob f.jpg is still
reachable, contradicting the claimed removal order. -/
theorem deleteTenant_fs_metadata_first_cx :
    FS.deleteClientTrace fsDel0 "a" = [fsDel0, fsDelMid, { clients := [], dirs := [] }] ∧
    FS.safeFor fsDel0 "a" ∧
    ¬ FS.safeFor fsDelMid "a" := by
  decide

/-- C3 amended: in the Supabase variant blobs are removed before the metadata
record, so along its delete-tenant trace a state never has the tenant record
absent while blobs remain, provided the initial state is orphan-free for that
id; the filesystem variant removes the metadata record first and violates this
ordering at its intermediate state. -/
theorem deleteTenant_order_amended :
    ∀ (s : SBState) (id : String), SB.safeFor s id →
    ∀ t ∈ SB.deleteClientTrace s id, SB.safeFor t id := by
  intro s id h t ht
  have hfilter : ∀ b ∈ s.store.filter (fun b => !(b.1 == id)), b.1 ≠ id := by
    intro b hb
    have hp := List.of_mem_filter hb
    simpa using hp
  simp only [SB.deleteClientTrace] at ht
  by_cases hf : 0 < (s.store.filter (fun b => b.1 == id)).length
  · simp only [if_pos hf, List.mem_cons, List.not_mem_nil, or_false] at ht
    rcases ht with rfl | rfl | rfl
    · exact h
    · exact Or.inr hfilter
    · exact Or.inr hfilter
  · simp only [if_neg hf, List.mem_cons, List.not_mem_nil, or_false] at ht
    have hnone : ∀ b ∈ s.store, b.1 ≠ id := by
      intro b hb
      have hnil : s.store.filter (fun b => b.1 == id) = [] :=
        List.length_eq_zero.mp (Nat.eq_zero_of_not_pos hf)
      have hq := List.filter_eq_nil_iff.mp hnil b hb
      simpa using hq
    rcases ht with rfl | rfl | rfl
    · exact h
    · exact Or.inr hnone
    · exact Or.inr hnone

/-- Supabase state holding one tenant a with one stored photo. -/
def sbDel0 : SBState :=
  { db := [{ id := "a", name := "Ana", createdAt := 1 }], store := [("a", "f.jpg")] }

/-- C3 amended witness: the intermediate state of the Supabase delete-tenant
trace on a concrete one-tenant state is orphan-free. -/
theorem deleteTenant_order_amended_w :
    SB.safeFor { db := [{ id := "a", name := "Ana", createdAt := 1 }], store := [] } "a" :=
  deleteTenant_order_amended sbDel0 "a" (by decide)
    { db := [{ id := "a", name := "Ana", createdAt := 1 }], store := [] } (by decide)

/-- C5 counterexample: the filesystem variant answers 404 File not found when
the photo to delete does not exist, so deleting a non-existent key is an error
there, not an idempotent success. -/
theorem deleteAsset_fs_absent_404_cx :
    FS.deletePhoto ⟨[], []⟩ "c" "missing.jpg" = (⟨[], []⟩, Resp.notFound) ∧
    Resp.notFound ≠ Resp.ok := by
  decide

/-- C5 amended: deleting a tenant succeeds in both variants even when the id
is unknown, leaving the state unchanged, and the Supabase single-photo delete
likewise succeeds on an absent key without touching the store; the filesystem
variant instead answers 404 File not found on an absent file, also leaving the
state unchanged. -/
theorem delete_idempotent_amended :
    ∀ (s : SBState) (t : FSState) (id c f : String),
    (SB.deleteClient s id).2 = Resp.ok ∧
    (FS.deleteClient t id).2 = Resp.ok ∧
    ((∀ u ∈ s.db, u.id ≠ id) → (∀ b ∈ s.store, b.1 ≠ id) →
      SB.deleteClient s id = (s, Resp.ok)) ∧
    ((∀ u ∈ t.clients, u.id ≠ id) → (∀ d ∈ t.dirs, d.1 ≠ id) →
      FS.deleteClient t id = (t, Resp.ok)) ∧
    ((∀ b ∈ s.store, ¬(b.1 = c ∧ b.2 = f)) → SB.deletePhoto s c f = (s, Resp.ok)) ∧
    (FS.fileExists t c f = false → FS.deletePhoto t c f = (t, Resp.notFound)) := by
  intro s t id c f
  obtain ⟨db, store⟩ := s
  obtain ⟨cl, dirs⟩ := t
  refine ⟨rfl, rfl, ?_, ?_, ?_, ?_⟩
  · intro h1 h2
    have hnil : store.filter (fun b => b.1 == id) = [] :=
      List.filter_eq_nil_iff.mpr (by intro b hb; simpa using h2 b hb)
    have hdb : db.filter (fun u => !(u.id == id)) = db :=
      List.filter_eq_self.mpr (by intro u hu; simpa using h1 u hu)
    simp [SB.deleteClient, SB.deleteClientTrace, hnil, hdb, List.getLastD]
  · intro h1 h2
    have hcl : cl.filter (fun u => !(u.id == id)) = cl :=
      List.filter_eq_self.mpr (by intro u hu; simpa using h1 u hu)
    have hany : dirs.any (fun d => d.1 == id) = false := by
      simp only [List.any_eq_false]
      intro d hd
      simpa using h2 d hd
    simp [FS.deleteClient, FS.deleteClientTrace, hcl, hany, List.getLastD]
  · intro h1
    have hst : store.filter (fun b => !(b.1 == c && b.2 == f)) = store := by
      refine List.filter_eq_self.mpr ?_
      intro b hb
      by_cases hbc : b.1 = c
      · by_cases hbf : b.2 = f
        · exact absurd ⟨hbc, hbf⟩ (h1 b hb)
        · simp [hbc, hbf]
      · simp [hbc]
    have hdef : SB.deletePhoto ⟨db, store⟩ c f =
        ({ db := db, store := List.filter (fun b => !(b.1 == c && b.2 == f)) store }, Resp.ok) := rfl
    rw [hdef, hst]
  · intro h1
    simp [FS.deletePhoto, h1]

/-- C5 amended witness at empty states where the id, key and file are all
absent. -/
theorem delete_idempotent_amended_w :
    SB.deleteClient ⟨[], []⟩ "x" = (⟨[], []⟩, Resp.ok) ∧
    FS.deleteClient ⟨[], []⟩ "x" = (⟨[], []⟩, Resp.ok) ∧
    SB.deletePhoto ⟨[], []⟩ "c" "f" = (⟨[], []⟩, Resp.ok) ∧
    FS.deletePhoto ⟨[], []⟩ "c" "f" = (⟨[], []⟩, Resp.notFound) :=
  ⟨(delete_idempotent_amended ⟨[], []⟩ ⟨[], []⟩ "x" "c" "f").2.2.1 (by decide) (by decide),
   (delete_idempotent_amended ⟨[], []⟩ ⟨[], []⟩ "x" "c" "f").2.2.2.1 (by decide) (by decide),
   (delete_idempotent_amended ⟨[], []⟩ ⟨[], []⟩ "x" "c" "f").2.2.2.2.1 (by decide),
   (delete_idempotent_amended ⟨[], []⟩ ⟨[], []⟩ "x" "c" "f").2.2.2.2.2 (by decide)⟩

/-- One multipart file of an upload request, as multer presents it: the
client-declared original name, mime type and byte size, plus the uuid the
server generates for its stored name. -/
structure UpFile where
  originalname : String
  mimetype : String
  size : Nat
  uuid : String
  deriving DecidableEq

/-- Suffix of a character list starting at its last dot, when one exists. -/
def lastDotSuffix (cs : List Char) : Option (List Char) :=
  match cs with
  | [] => none
  | c :: rest =>
      match lastDotSuffix rest with
      | some suf => some suf
      | none => if c == Char.ofNat 46 then some (c :: rest) else none

/-- Models path.extname for ordinary file names: the basename suffix starting
at its last dot, empty when there is no dot or the dot is the leading
character of the basename. -/
def extname (s : String) : String :=
  let base := (s.data.reverse.takeWhile (fun c => !(c == Char.ofNat 47))).reverse
  match lastDotSuffix base with
  | none => ""
  | some suf => if suf.length = base.length then "" else String.mk suf

namespace SB

/-- Multer config of the Supabase variant (api/index.ts lines 200-204): memory
storage with a 5 MB per-file size limit and no fileFilter, so the declared
content type is not checked by the app code. -/
def multerAccepts (_mimetype : String) (size : Nat) : Bool :=
  decide (size ≤ 5242880)

/-- Storage key written per uploaded file by the Supabase upload loop
(api/index.ts lines 333-334): client prefix and uuid plus the extension of the
original name. -/
def photoKey (client : String) (f : UpFile) : String × String :=
  (client, f.uuid ++ extname f.originalname)

/-- Upload loop of POST /api/admin/upload/:client (api/index.ts lines
332-343): files are processed in order; a successful backend upload stores the
object, while the first backend error is thrown, aborting the loop and the
whole request with a 500 response; files after it are never attempted and a
single response is produced for the batch. -/
def uploadLoop (store : List (String × String)) (client : String)
    (files : List UpFile) (fail : UpFile → Bool) : List (String × String) × Resp :=
  match files with
  | [] => (store, Resp.ok)
  | f :: rest =>
      if fail f then (store, Resp.serverError)
      else uploadLoop (store ++ [photoKey client f]) client rest fail

/-- Request pipeline of POST /api/admin/upload/:client (api/index.ts lines
322-348): multer enforces the 30-file batch cap and the 5 MB per-file size
limit, the handler rejects an empty batch, then the per-file loop runs.  No
per-tenant asset-count quota is consulted anywhere. -/
def uploadRequest (store : List (String × String)) (client : String)
    (files : List UpFile) (fail : UpFile → Bool) : List (String × String) × Resp :=
  if 30 < files.length then (store, Resp.badRequest)
  else if files.any (fun f => !(multerAccepts f.mimetype f.size)) then (store, Resp.badRequest)
  else if files.length = 0 then (store, Resp.badRequest)
  else uploadLoop store client files fail

/-- Number of stored objects under a tenant prefix. -/
def tenantCount (store : List (String × String)) (t : String) : Nat :=
  (store.filter (fun b => b.1 == t)).length

/-- Public gallery listing GET /api/client/:id (api/index.ts lines 367-394):
the object names under the tenant prefix, in listing order. -/
def listGallery (store : List (String × String)) (t : String) : List String :=
  (store.filter (fun b => b.1 == t)).map (fun b => b.2)

end SB

namespace FS

/-- Multer config of the filesystem variant (part_006 lines 89-100): the
fileFilter accepts exactly the three allowed image content types, within the
10 MB size limit, before anything is written for that file. -/
def multerAccepts (mimetype : String) (size : Nat) : Bool :=
  (["image/jpeg", "image/png", "image/webp"].contains mimetype) && decide (size ≤ 10485760)

/-- Response of POST /api/admin/upload/:client (part_006 lines 147-158): the
handler runs after multer has already written the batch to disk, re-reads the
directory and answers the quota error when it holds more than 30 files; it
removes nothing in that case despite the cleanup comment. -/
def uploadHandlerResp (dirFiles : List String) : Resp :=
  if 30 < dirFiles.length then Resp.quotaExceeded else Resp.ok

end FS

/-- Store of 28 objects already under the tenant prefix t. -/
def store28 : List (String × String) :=
  (List.range 28).map (fun i => ("t", toString i))

/-- Batch of 5 jpeg files of 100 bytes each with distinct uuids. -/
def batch5 : List UpFile :=
  (List.range 5).map
    (fun i => { originalname := "p.jpg", mimetype := "image/jpeg", size := 100, uuid := "u" ++ toString i })

/-- C2 counterexample: the Supabase upload pipeline consults no per-tenant
quota at all; a batch of 5 files against a tenant with 28 existing assets
succeeds for all 5 and leaves 33 assets, instead of storing min(5, 30-28) = 2
and keeping the count at 30 as the claim states. -/
theorem uploadQuota_supabase_none_cx :
    SB.tenantCount store28 "t" = 28 ∧
    (SB.uploadRequest store28 "t" batch5 (fun _ => false)).2 = Resp.ok ∧
    SB.tenantCount (SB.uploadRequest store28 "t" batch5 (fun _ => false)).1 "t" = 33 := by
  decide

/-- C2 amended: the Supabase upload loop stores every file of the batch the
backend accepts, growing the tenant asset count by the full batch size with no
per-tenant cap (only the 30-file batch limit of multer applies); the
filesystem variant answers the quota error only after the whole batch is on
disk, when the directory exceeds 30 files, and removes nothing. -/
theorem uploadQuota_amended :
    ∀ (store : List (String × String)) (c : String) (files : List UpFile) (l : List String),
    SB.uploadLoop store c files (fun _ => false) = (store ++ files.map (SB.photoKey c), Resp.ok) ∧
    SB.tenantCount (store ++ files.map (SB.photoKey c)) c = SB.tenantCount store c + files.length ∧
    (FS.uploadHandlerResp l = if 30 < l.length then Resp.quotaExceeded else Resp.ok) := by
  intro store c files l
  refine ⟨?_, ?_, rfl⟩
  · induction files generalizing store with
    | nil => simp [SB.uploadLoop]
    | cons f rest ih =>
        simp only [SB.uploadLoop, Bool.false_eq_true, if_false, List.map_cons]
        rw [ih (store ++ [SB.photoKey c f])]
        simp [List.append_assoc]
  · unfold SB.tenantCount
    rw [List.filter_append, List.length_append]
    congr 1
    induction files with
    | nil => rfl
    | cons f rest ih => simp [SB.photoKey, ih]

/-- File the modelled backend accepts. -/
def okFile : UpFile :=
  { originalname := "a.jpg", mimetype := "image/jpeg", size := 100, uuid := "ua" }

/-- File on which the modelled backend reports an error. -/
def badFile : UpFile :=
  { originalname := "b.jpg", mimetype := "image/jpeg", size := 100, uuid := "bad" }

/-- Backend failure pattern: the upload call errors exactly on badFile. -/
def failOnBad : UpFile → Bool :=
  fun g => g.uuid == "bad"

/-- C4 counterexample: in the Supabase upload loop the first backend failure
is thrown, so a sibling file the backend would accept is never attempted, no
per-file result list is produced, and the whole batch answers a single 500,
contradicting the claim that every file is attempted and reported
independently. -/
theorem uploadBatch_abort_cx :
    failOnBad okFile = false ∧
    SB.uploadLoop [] "c" [badFile, okFile] failOnBad = ([], Resp.serverError) := by
  decide

/-- C4 amended: in the Supabase upload loop the files before the first backend
failure are stored and never rolled back, the failing file aborts the loop,
the files after it are never attempted, and the request answers one 500 for
the whole batch rather than a per-file result list. -/
theorem uploadBatch_abort_amended :
    ∀ (store : List (String × String)) (c : String) (fail : UpFile → Bool)
      (pre : List UpFile) (f : UpFile) (post : List UpFile),
    (∀ g ∈ pre, fail g = false) → fail f = true →
    SB.uploadLoop store c (pre ++ f :: post) fail =
      (store ++ pre.map (SB.photoKey c), Resp.serverError) := by
  intro store c fail pre f post
  induction pre generalizing store with
  | nil =>
      intro _ hf
      simp [SB.uploadLoop, hf]
  | cons g gs ih =>
      intro hpre hf
      have hg : fail g = false := hpre g (by simp)
      simp only [List.cons_append, SB.uploadLoop, hg, Bool.false_eq_true, if_false, List.map_cons]
      simp only [List.append_eq]
      rw [ih (store ++ [SB.photoKey c g]) (fun x hx => hpre x (by simp [hx])) hf]
      simp [List.append_assoc]

/-- C4 amended witness: a concrete two-file batch whose second file fails. -/
theorem uploadBatch_abort_amended_w :
    SB.uploadLoop [] "c" ([okFile] ++ badFile :: []) failOnBad =
      ([] ++ [okFile].map (SB.photoKey "c"), Resp.serverError) :=
  uploadBatch_abort_amended [] "c" failOnBad [okFile] badFile [] (by decide) (by decide)

/-- Upload declared as plain text. -/
def textFile : UpFile :=
  { originalname := "a.txt", mimetype := "text/plain", size := 10, uuid := "u1" }

/-- C6 counterexample: the Supabase variant applies no content-type check of
its own, so a file declared text/plain passes its multer config, is stored by
the upload pipeline, and appears in the subsequent gallery listing, instead of
failing with an unsupported-type error before any bytes are persisted. -/
theorem contentType_supabase_accepted_cx :
    SB.multerAccepts textFile.mimetype textFile.size = true ∧
    FS.multerAccepts textFile.mimetype textFile.size = false ∧
    SB.uploadRequest [] "c" [textFile] (fun _ => false) = ([("c", "u1.txt")], Resp.ok) ∧
    SB.listGallery (SB.uploadRequest [] "c" [textFile] (fun _ => false)).1 "c" = ["u1.txt"] := by
  decide

/-- C6 amended: the filesystem variant rejects any content type outside
jpeg/png/webp in its multer fileFilter before the file is written, and
enforces a 10 MB ceiling; the Supabase variant checks only its 5 MB ceiling in
app code, accepting every declared content type and delegating any type
restriction to the storage backend configuration. -/
theorem contentType_amended : ∀ (m : String) (s : Nat),
    (FS.multerAccepts m s = true ↔
      ((m = "image/jpeg" ∨ m = "image/png" ∨ m = "image/webp") ∧ s ≤ 10485760)) ∧
    (SB.multerAccepts m s = true ↔ s ≤ 5242880) := by
  intro m s
  constructor
  · simp [FS.multerAccepts, List.contains, or_assoc]
  · simp [SB.multerAccepts]

namespace SB

/-- Branding logo key of POST /api/admin/settings/logo (api/index.ts lines
244-245): the literal branding/logo followed by the extension of the uploaded
file original name, so the key varies with that extension. -/
def logoKey (originalname : String) : String :=
  "branding/logo" ++ extname originalname

/-- Public URL of a stored object as produced by getPublicUrl: a fixed public
path prefix followed by the object key. -/
def publicUrl (key : String) : String :=
  "/storage/v1/object/public/photos/" ++ key

/-- POST /api/admin/settings/logo (api/index.ts lines 237-268): upload the
file buffer at the logo key with upsert enabled, the bucket being a map from
keys to contents, then upsert the branding settings record to the resolved
public URL of that key.  Returns the updated bucket and the stored settings
logo value. -/
def updateLogo (bucket : String → Option String) (originalname content : String) :
    (String → Option String) × String :=
  let key := logoKey originalname
  ((fun k => if k = key then some content else bucket k), publicUrl key)

end SB

/-- C8 counterexample: the logo is not stored under one fixed key; uploads
with different extensions write different keys, the resolved settings URL
changes between the two updates, and the first logo bytes survive at the old
key. -/
theorem branding_key_extension_cx :
    SB.logoKey "logo.png" ≠ SB.logoKey "logo.jpg" ∧
    (SB.updateLogo (SB.updateLogo (fun _ => none) "logo.png" "A").1 "logo.jpg" "B").2 ≠
      (SB.updateLogo (fun _ => none) "logo.png" "A").2 ∧
    (SB.updateLogo (SB.updateLogo (fun _ => none) "logo.png" "A").1 "logo.jpg" "B").1
      (SB.logoKey "logo.png") = some "A" := by
  decide

/-- C8 amended: the logo key is branding/logo plus the uploaded extension;
when two UpdateBranding calls carry the same extension the second overwrites
the first at that same key, the resolved settings URL is unchanged and the
content at the key is the new bytes; a different extension instead writes a
new key. -/
theorem branding_fixed_key_amended :
    ∀ (bucket : String → Option String) (a b c1 c2 : String), extname a = extname b →
    (SB.updateLogo (SB.updateLogo bucket a c1).1 b c2).2 = (SB.updateLogo bucket a c1).2 ∧
    (SB.updateLogo (SB.updateLogo bucket a c1).1 b c2).1 (SB.logoKey a) = some c2 := by
  intro bucket a b c1 c2 h
  have hk : SB.logoKey a = SB.logoKey b := by simp [SB.logoKey, h]
  constructor
  · simp [SB.updateLogo, SB.publicUrl, hk]
  · simp [SB.updateLogo, hk]

/-- C8 amended witness: two png uploads with different names share the key. -/
theorem branding_fixed_key_amended_w :
    (SB.updateLogo (SB.updateLogo (fun _ => none) "x.png" "A").1 "y.png" "B").2 =
      (SB.updateLogo (fun _ => none) "x.png" "A").2 ∧
    (SB.updateLogo (SB.updateLogo (fun _ => none) "x.png" "A").1 "y.png" "B").1
      (SB.logoKey "x.png") = some "B" :=
  branding_fixed_key_amended (fun _ => none) "x.png" "y.png" "A" "B" (by decide)
